import Mathlib

/-!
# Verification of the edge access-control gateway (worker.js)

Shallow embedding of the Cloudflare-worker gateway: HMAC cookie signing,
the signed session-token codec, the fixed-window rate limiter, the paid
course gate, the login handler and the ratings handlers.

Strings are modelled as `List Char` (`Str`).  The HMAC-SHA256 primitive
(`crypto.subtle`, an external platform API) is modelled as an abstract
function `hmac : Str → Str → List Byte`; everything the repository builds
on top of it (hex encoding, constant-time comparison, token format,
handlers) is translated concretely from the source.
-/

namespace Wasla

/-- JS strings are modelled as lists of characters. -/
abbrev Str := List Char

/-- A byte, as found in the `Uint8Array` produced by `crypto.subtle.sign`. -/
abbrev Byte := Fin 256

/-- The type of the abstract HMAC-SHA256 primitive: payload → secret → raw digest bytes. -/
abbrev Hmac := Str → Str → List Byte

/-- One hex digit, as produced by `b.toString(16)` for `b < 16`:
`0`-`9` then lowercase `a`-`f`. -/
def hexDigit (n : Fin 16) : Char :=
  if n.val < 10 then Char.ofNat (48 + n.val) else Char.ofNat (87 + n.val)

/-- `b.toString(16).padStart(2, '0')` for a byte `b`: exactly two hex digits. -/
def hexByte (b : Byte) : List Char :=
  [hexDigit ⟨b.val / 16, by omega⟩, hexDigit ⟨b.val % 16, by omega⟩]

/-- `Array.from(sig).map(b => b.toString(16).padStart(2,'0')).join('')` (worker.js 197-199). -/
def hexEncode (bs : List Byte) : Str :=
  (bs.map hexByte).flatten

/-- `signPayload(payload, secret)` (worker.js 189-200): hex encoding of the HMAC digest. -/
def signPayload (hmac : Hmac) (payload secret : Str) : Str :=
  hexEncode (hmac payload secret)

/-- The accumulated `mismatch |= a ^ b` loop of `verifySignature` (worker.js 205-208). -/
def foldMismatch (a b : Str) : Nat :=
  (a.zip b).foldl (fun m p => m ||| (p.1.toNat ^^^ p.2.toNat)) 0

/-- `verifySignature(payload, signature, secret)` (worker.js 202-210). -/
def verifySignature (hmac : Hmac) (payload signature secret : Str) : Bool :=
  let expected := signPayload hmac payload secret
  if expected.length ≠ signature.length then false
  else foldMismatch expected signature == 0

/-! ## Signer lemmas -/

theorem or_eq_zero (m n : Nat) : m ||| n = 0 ↔ m = 0 ∧ n = 0 := by
  constructor
  · intro h
    have h1 : (m ||| n).testBit = (0 : Nat).testBit := by rw [h]
    constructor <;> (apply Nat.eq_of_testBit_eq; intro i)
    · have := congrFun h1 i
      simp [Nat.testBit_or] at this ⊢
      tauto
    · have := congrFun h1 i
      simp [Nat.testBit_or] at this ⊢
      tauto
  · rintro ⟨rfl, rfl⟩
    rfl

theorem char_toNat_inj {c d : Char} (h : c.toNat = d.toNat) : c = d :=
  Char.ext (UInt32.ext h)

theorem foldMismatch_acc (a : Str) : ∀ (b : Str) (m : Nat),
    ((a.zip b).foldl (fun m p => m ||| (p.1.toNat ^^^ p.2.toNat)) m = 0) ↔
      (m = 0 ∧ ∀ p ∈ a.zip b, p.1.toNat ^^^ p.2.toNat = 0) := by
  induction a with
  | nil => intro b m; simp
  | cons x xs ih =>
    intro b m
    cases b with
    | nil => simp
    | cons y ys =>
      simp only [List.zip_cons_cons, List.foldl_cons]
      rw [ih ys (m ||| (x.toNat ^^^ y.toNat)), or_eq_zero]
      constructor
      · rintro ⟨⟨h1, h2⟩, h3⟩
        refine ⟨h1, ?_⟩
        intro p hp
        rcases List.mem_cons.mp hp with h | h
        · subst h; exact h2
        · exact h3 p h
      · rintro ⟨h1, h2⟩
        refine ⟨⟨h1, h2 (x, y) (List.mem_cons_self _ _)⟩, ?_⟩
        intro p hp
        exact h2 p (List.mem_cons_of_mem _ hp)

theorem zip_xor_eq (a : Str) : ∀ (b : Str), a.length = b.length →
    ((∀ p ∈ a.zip b, p.1.toNat ^^^ p.2.toNat = 0) ↔ a = b) := by
  induction a with
  | nil =>
    intro b h
    cases b with
    | nil => simp
    | cons y ys => simp at h
  | cons x xs ih =>
    intro b h
    cases b with
    | nil => simp at h
    | cons y ys =>
      simp only [List.zip_cons_cons, List.cons.injEq]
      constructor
      · intro hp
        have hx := hp (x, y) (List.mem_cons_self _ _)
        refine ⟨char_toNat_inj (Nat.xor_eq_zero.mp hx), ?_⟩
        exact (ih ys (by simpa using h)).mp
          (fun p hp2 => hp p (List.mem_cons_of_mem _ hp2))
      · rintro ⟨rfl, rfl⟩
        intro p hp
        rcases List.mem_cons.mp hp with h2 | h2
        · subst h2; simp
        · exact (ih _ rfl).mpr rfl p h2

theorem foldMismatch_eq_zero {a b : Str} (hlen : a.length = b.length) :
    foldMismatch a b = 0 ↔ a = b := by
  unfold foldMismatch
  rw [foldMismatch_acc]
  simp only [true_and]
  exact zip_xor_eq a b hlen

/-- The signer accepts what it signed. -/
theorem verify_sign (hmac : Hmac) (payload secret : Str) :
    verifySignature hmac payload (signPayload hmac payload secret) secret = true := by
  have h : foldMismatch (signPayload hmac payload secret)
      (signPayload hmac payload secret) = 0 :=
    (foldMismatch_eq_zero rfl).mpr rfl
  simp [verifySignature, h]

/-- The signer rejects any signature other than the one it computes. -/
theorem verify_wrong_sig (hmac : Hmac) (p s sig' : Str)
    (h : sig' ≠ signPayload hmac p s) : verifySignature hmac p sig' s = false := by
  unfold verifySignature
  by_cases hl : (signPayload hmac p s).length = sig'.length
  · rw [if_neg (by simpa using hl)]
    simp only [beq_eq_false_iff_ne, ne_eq]
    rw [foldMismatch_eq_zero hl]
    exact fun he => h he.symm
  · rw [if_pos hl]

theorem hexDigit_inj : ∀ m n : Fin 16, hexDigit m = hexDigit n → m = n := by decide

theorem hexEncode_cons (b : Byte) (bs : List Byte) :
    hexEncode (b :: bs) = hexByte b ++ hexEncode bs := by
  simp [hexEncode]

theorem hexEncode_inj : ∀ bs1 bs2 : List Byte, hexEncode bs1 = hexEncode bs2 → bs1 = bs2 := by
  intro bs1
  induction bs1 with
  | nil =>
    intro bs2 h
    cases bs2 with
    | nil => rfl
    | cons b bs => simp [hexEncode, hexByte] at h
  | cons a as ih =>
    intro bs2 h
    cases bs2 with
    | nil => simp [hexEncode, hexByte] at h
    | cons b bs =>
      rw [hexEncode_cons, hexEncode_cons] at h
      simp only [hexByte, List.cons_append, List.nil_append, List.cons.injEq] at h
      obtain ⟨h1, h2, h3⟩ := h
      have e1 := hexDigit_inj _ _ h1
      have e2 := hexDigit_inj _ _ h2
      have : a = b := by
        apply Fin.ext
        have v1 : a.val / 16 = b.val / 16 := congrArg Fin.val e1
        have v2 : a.val % 16 = b.val % 16 := congrArg Fin.val e2
        omega
      exact this ▸ congrArg (List.cons a) (ih bs h3)

theorem hexDigit_ne_dot : ∀ n : Fin 16, hexDigit n ≠ '.' := by decide

theorem not_dot_mem_hexEncode (bs : List Byte) : '.' ∉ hexEncode bs := by
  induction bs with
  | nil => simp [hexEncode]
  | cons b bs ih =>
    rw [hexEncode_cons]
    intro h
    rcases List.mem_append.mp h with h | h
    · rcases List.mem_cons.mp h with h | h
      · exact hexDigit_ne_dot _ h.symm
      · rcases List.mem_cons.mp h with h | h
        · exact hexDigit_ne_dot _ h.symm
        · simp at h
    · exact ih h

/-- The signer rejects a payload whose HMAC digest differs from the signed one. -/
theorem verify_wrong_payload (hmac : Hmac) (p p' s : Str)
    (h : hmac p' s ≠ hmac p s) :
    verifySignature hmac p' (signPayload hmac p s) s = false := by
  apply verify_wrong_sig
  intro he
  exact h (hexEncode_inj _ _ (he.symm : hexEncode (hmac p' s) = hexEncode (hmac p s)))

/-- Claim C3: for every payload and secret, `verify(payload, sign(payload, secret), secret)`
returns true; a signature differing from the computed one in at least one character is
rejected, and a payload whose HMAC digest differs from the signed payload's digest is
rejected.  (Collision-freedom of the external HMAC-SHA256 primitive on the two payloads
is the hypothesis `hcoll`; the repository's own code cannot decide it.) -/
theorem C3_signer_correct (hmac : Hmac) (p p' s sig' : Str)
    (hsig : sig' ≠ signPayload hmac p s)
    (hcoll : hmac p' s ≠ hmac p s) :
    verifySignature hmac p (signPayload hmac p s) s = true ∧
    verifySignature hmac p sig' s = false ∧
    verifySignature hmac p' (signPayload hmac p s) s = false :=
  ⟨verify_sign hmac p s, verify_wrong_sig hmac p s sig' hsig,
   verify_wrong_payload hmac p p' s hcoll⟩

/-- A demonstration instantiation of the abstract HMAC primitive, used only to
evaluate the theorems at concrete inputs. -/
def demoHmac : Hmac := fun p s => [⟨(p.length + 2 * s.length) % 256, Nat.mod_lt _ (by omega)⟩]

theorem C3_signer_correct_witness :
    ((['x'] : Str) ≠ signPayload demoHmac ['a'] ['s'] ∧
     demoHmac ['a', 'b'] ['s'] ≠ demoHmac ['a'] ['s']) ∧
    (verifySignature demoHmac ['a'] (signPayload demoHmac ['a'] ['s']) ['s'] = true ∧
     verifySignature demoHmac ['a'] ['x'] ['s'] = false ∧
     verifySignature demoHmac ['a', 'b'] (signPayload demoHmac ['a'] ['s']) ['s'] = false) :=
  ⟨⟨by decide, by decide⟩,
   C3_signer_correct demoHmac ['a'] ['a', 'b'] ['s'] ['x'] (by decide) (by decide)⟩

/-! ## Decimal formatting, as performed by JS `String(n)` / template interpolation -/

/-- The decimal digit character for `d < 10`. -/
def digitChar10 (d : Nat) : Char :=
  Char.ofNat (48 + d % 10)

/-- Numeric value of a decimal digit character. -/
def charVal (c : Char) : Nat := c.toNat - 48

/-- Decimal value of a digit string (used by the `parseInt` model). -/
def strToNat (s : Str) : Nat := s.foldl (fun a c => a * 10 + charVal c) 0

/-- Fuel-driven decimal rendering of a natural number. -/
def natToStrAux : Nat → Nat → Str
  | 0, _ => []
  | fuel + 1, n =>
    if n < 10 then [digitChar10 n]
    else natToStrAux fuel (n / 10) ++ [digitChar10 (n % 10)]

/-- `String(n)` for a nonnegative integer `n`: its decimal representation. -/
def natToStr (n : Nat) : Str := natToStrAux (n + 1) n

/-- `String(i)` for a JS integer. -/
def intToStr (i : Int) : Str :=
  if i < 0 then '-' :: natToStr i.natAbs else natToStr i.toNat

theorem charVal_digitChar10 (d : Nat) (h : d < 10) : charVal (digitChar10 d) = d := by
  interval_cases d <;> decide

theorem strToNat_append_digit (s : Str) (c : Char) :
    strToNat (s ++ [c]) = strToNat s * 10 + charVal c := by
  simp [strToNat, List.foldl_append]

theorem natToStrAux_correct : ∀ fuel n, n < fuel → strToNat (natToStrAux fuel n) = n := by
  intro fuel
  induction fuel with
  | zero => intro n h; omega
  | succ f ih =>
    intro n hn
    by_cases h : n < 10
    · simp [natToStrAux, h, strToNat, charVal_digitChar10 n h]
    · rw [natToStrAux, if_neg h, strToNat_append_digit, ih (n / 10) (by omega),
        charVal_digitChar10 _ (Nat.mod_lt _ (by omega))]
      omega

theorem natToStr_roundtrip (n : Nat) : strToNat (natToStr n) = n :=
  natToStrAux_correct _ _ (by omega)

theorem natToStr_inj {a b : Nat} (h : natToStr a = natToStr b) : a = b := by
  have := congrArg strToNat h
  rwa [natToStr_roundtrip, natToStr_roundtrip] at this

/-! ## JS string helpers -/

/-- The JS `\s` / `StrWhiteSpace` character class (whitespace and line terminators). -/
def isJsWs (c : Char) : Bool :=
  c ∈ ([' ', '\t', '\n', '\r', Char.ofNat 11, Char.ofNat 12, Char.ofNat 0xa0,
        Char.ofNat 0x1680, Char.ofNat 0x2000, Char.ofNat 0x2001, Char.ofNat 0x2002,
        Char.ofNat 0x2003, Char.ofNat 0x2004, Char.ofNat 0x2005, Char.ofNat 0x2006,
        Char.ofNat 0x2007, Char.ofNat 0x2008, Char.ofNat 0x2009, Char.ofNat 0x200a,
        Char.ofNat 0x2028, Char.ofNat 0x2029, Char.ofNat 0x202f, Char.ofNat 0x205f,
        Char.ofNat 0x3000, Char.ofNat 0xfeff] : List Char)

/-- Leading decimal digits of a string, as an integer with the given sign;
`none` when there is no leading digit (`NaN`). -/
def parseDigits (sign : Int) (r : Str) : Option Int :=
  if (r.takeWhile Char.isDigit).isEmpty then none
  else some (sign * (strToNat (r.takeWhile Char.isDigit) : Int))

/-- `parseInt(s, 10)`: skip leading whitespace, optional sign, then leading
decimal digits; `none` models `NaN`.  Trailing garbage is ignored. -/
def parseIntJs (s : Str) : Option Int :=
  match s.dropWhile isJsWs with
  | [] => none
  | c :: r =>
    if c = '-' then parseDigits (-1) r
    else if c = '+' then parseDigits 1 r
    else parseDigits 1 (c :: r)

/-- `s.trim()`. -/
def trimJs (s : Str) : Str :=
  ((s.dropWhile isJsWs).reverse.dropWhile isJsWs).reverse

/-- `s.toLowerCase()` (restricted to the ASCII range). -/
def toLowerAscii (s : Str) : Str :=
  s.map (fun c => if 'A' ≤ c ∧ c ≤ 'Z' then Char.ofNat (c.toNat + 32) else c)

/-! ## Token codec (paid cookie, worker.js 216-246) -/

/-- The decoded JSON payload of a paid cookie.  `exp = none` models an absent
`exp` field (JS `undefined`, which is falsy, like `0`). -/
structure ClaimData where
  courseId : Str
  email : Str
  iat : Int
  exp : Option Int
deriving DecidableEq, Repr

/-- The external `btoa(JSON.stringify(·))` serialisation, abstract. -/
abbrev ClaimEnc := ClaimData → Str

/-- The external `JSON.parse(atob(·))` deserialisation, abstract. -/
abbrev ClaimDec := Str → Option ClaimData

def PAID_COOKIE_MAX_AGE : Nat := 30 * 24 * 60 * 60

/-- The claim object built by `createPaidCookie` (worker.js 221-227). -/
def mintedClaim (courseId : Nat) (email : Str) (nowMs : Nat) : ClaimData :=
  { courseId := natToStr courseId
    email := email
    iat := (nowMs / 1000 : Nat)
    exp := some (((nowMs / 1000 : Nat) : Int) + (PAID_COOKIE_MAX_AGE : Int)) }

/-- `createPaidCookie(courseId, email, secret)` (worker.js 220-231). -/
def createPaidCookie (hmac : Hmac) (enc : ClaimEnc) (courseId : Nat)
    (email secret : Str) (nowMs : Nat) : Str :=
  let encoded := enc (mintedClaim courseId email nowMs)
  encoded ++ '.' :: signPayload hmac encoded secret

/-- Split a string at its last `'.'` (the `lastIndexOf`/`substring` pair of
worker.js 235-238); `none` when there is no dot. -/
def splitAtLastDot (cs : Str) : Option (Str × Str) :=
  match cs.reverse.dropWhile (fun c => c != '.') with
  | [] => none
  | _ :: encR => some (encR.reverse, (cs.reverse.takeWhile (fun c => c != '.')).reverse)

/-- `parsePaidCookie(cookieValue, secret)` (worker.js 233-246). -/
def parsePaidCookie (hmac : Hmac) (dec : ClaimDec) (cookieValue secret : Str)
    (nowMs : Nat) : Option ClaimData :=
  match splitAtLastDot cookieValue with
  | none => none
  | some (encoded, signature) =>
    if verifySignature hmac encoded signature secret then
      match dec encoded with
      | none => none
      | some data =>
        match data.exp with
        | none => some data
        | some e => if e ≠ 0 ∧ e < ((nowMs / 1000 : Nat) : Int) then none else some data
    else none

theorem dropWhile_append_of_all {p : Char → Bool} (l1 l2 : Str)
    (h : ∀ c ∈ l1, p c = true) : List.dropWhile p (l1 ++ l2) = List.dropWhile p l2 := by
  induction l1 with
  | nil => rfl
  | cons x xs ih =>
    simp only [List.cons_append, List.dropWhile_cons, h x (List.mem_cons_self _ _), if_true]
    exact ih (fun c hc => h c (List.mem_cons_of_mem _ hc))

theorem takeWhile_append_of_all {p : Char → Bool} (l1 l2 : Str)
    (h : ∀ c ∈ l1, p c = true) : List.takeWhile p (l1 ++ l2) = l1 ++ List.takeWhile p l2 := by
  induction l1 with
  | nil => rfl
  | cons x xs ih =>
    simp only [List.cons_append, List.takeWhile_cons, h x (List.mem_cons_self _ _), if_true]
    exact congrArg (List.cons x) (ih (fun c hc => h c (List.mem_cons_of_mem _ hc)))

theorem splitAtLastDot_append (E sig : Str) (h : '.' ∉ sig) :
    splitAtLastDot (E ++ '.' :: sig) = some (E, sig) := by
  unfold splitAtLastDot
  have hall : ∀ c ∈ sig.reverse, (c != '.') = true := by
    intro c hc
    have : c ∈ sig := List.mem_reverse.mp hc
    simp only [bne_iff_ne, ne_eq]
    intro he
    exact h (he ▸ this)
  have hrev : (E ++ '.' :: sig).reverse = sig.reverse ++ '.' :: E.reverse := by
    simp
  rw [hrev, dropWhile_append_of_all _ _ hall, takeWhile_append_of_all _ _ hall]
  simp [List.dropWhile_cons, List.takeWhile_cons]

theorem parse_create_eq (hmac : Hmac) (enc : ClaimEnc) (dec : ClaimDec)
    (cid : Nat) (email secret : Str) (mintMs nowMs : Nat)
    (hdec : dec (enc (mintedClaim cid email mintMs)) = some (mintedClaim cid email mintMs)) :
    parsePaidCookie hmac dec (createPaidCookie hmac enc cid email secret mintMs) secret nowMs
      = if (((mintMs / 1000 : Nat) : Int) + (PAID_COOKIE_MAX_AGE : Int) ≠ 0 ∧
            ((mintMs / 1000 : Nat) : Int) + (PAID_COOKIE_MAX_AGE : Int) < ((nowMs / 1000 : Nat) : Int))
        then none else some (mintedClaim cid email mintMs) := by
  have hsplit : splitAtLastDot (createPaidCookie hmac enc cid email secret mintMs)
      = some (enc (mintedClaim cid email mintMs),
              signPayload hmac (enc (mintedClaim cid email mintMs)) secret) := by
    unfold createPaidCookie
    exact splitAtLastDot_append _ _ (not_dot_mem_hexEncode _)
  unfold parsePaidCookie
  rw [hsplit]
  simp only [verify_sign, if_true]
  rw [hdec]
  rfl

/-- Claim C1, amended: parsing the minted token with the same secret returns the
exact minted claim at every time up to and including `expiresAt`; it returns
Invalid (`none`) only at times strictly after `expiresAt`.  (The source checks
`data.exp < now`, not `data.exp <= now`, so the boundary second `now = expiresAt`
still parses successfully.) -/
theorem C1_token_roundtrip_amended (hmac : Hmac) (enc : ClaimEnc) (dec : ClaimDec)
    (cid : Nat) (email secret : Str) (mintMs nowMs : Nat)
    (hdec : dec (enc (mintedClaim cid email mintMs)) = some (mintedClaim cid email mintMs)) :
    (nowMs / 1000 ≤ mintMs / 1000 + PAID_COOKIE_MAX_AGE →
      parsePaidCookie hmac dec (createPaidCookie hmac enc cid email secret mintMs) secret nowMs
        = some (mintedClaim cid email mintMs)) ∧
    (mintMs / 1000 + PAID_COOKIE_MAX_AGE < nowMs / 1000 →
      parsePaidCookie hmac dec (createPaidCookie hmac enc cid email secret mintMs) secret nowMs
        = none) := by
  rw [parse_create_eq hmac enc dec cid email secret mintMs nowMs hdec]
  constructor
  · intro hle
    rw [if_neg]
    intro hc
    have := hc.2
    have hmax : (PAID_COOKIE_MAX_AGE : Int) = 2592000 := by decide
    omega
  · intro hlt
    rw [if_pos]
    constructor
    · have hmax : (PAID_COOKIE_MAX_AGE : Int) = 2592000 := by decide
      omega
    · omega

/-- Claim C9: a token whose signature verifies but whose decoded payload has no
`exp` field, or `exp = 0`, parses successfully at every point in time. -/
theorem C9_falsy_exp_never_expires (hmac : Hmac) (dec : ClaimDec) (E secret : Str)
    (data : ClaimData) (hd : dec E = some data)
    (hexp : data.exp = none ∨ data.exp = some 0) (nowMs : Nat) :
    parsePaidCookie hmac dec (E ++ '.' :: signPayload hmac E secret) secret nowMs
      = some data := by
  unfold parsePaidCookie
  rw [splitAtLastDot_append E (signPayload hmac E secret) (not_dot_mem_hexEncode _)]
  simp only [verify_sign, if_true]
  rw [hd]
  show (match data.exp with
        | none => some data
        | some e => if e ≠ 0 ∧ e < ((nowMs / 1000 : Nat) : Int) then none else some data)
      = some data
  rcases hexp with h | h
  · rw [h]
  · rw [h]
    simp

/-! ### Demonstration codec (used only to evaluate theorems at concrete inputs) -/

/-- Decode an optionally signed decimal integer (demo codec helper). -/
def strToIntOpt (s : Str) : Option Int :=
  match s with
  | [] => none
  | '-' :: r => if r ≠ [] ∧ r.all Char.isDigit then some (-(strToNat r : Int)) else none
  | r => if r.all Char.isDigit then some ((strToNat r : Int)) else none

/-- A concrete injective-enough claim serialiser standing in for
`btoa(JSON.stringify(·))` in witnesses. -/
def demoEnc (c : ClaimData) : Str :=
  c.courseId ++ '|' :: c.email ++ '|' :: intToStr c.iat ++ '|' ::
    (match c.exp with
     | none => []
     | some e => 'e' :: intToStr e)

/-- The matching deserialiser for `demoEnc`. -/
def demoDec (s : Str) : Option ClaimData :=
  match s.splitOn '|' with
  | [cid, em, iatS, expS] =>
    match strToIntOpt iatS with
    | none => none
    | some iat =>
      match expS with
      | [] => some ⟨cid, em, iat, none⟩
      | 'e' :: r =>
        match strToIntOpt r with
        | none => none
        | some e => some ⟨cid, em, iat, some e⟩
      | _ => none
  | _ => none

/-- Counterexample to claim C1 as stated: at the boundary second
`now = expiresAt` (here both equal 2592000), `parsePaidCookie` still returns
the claim rather than Invalid. -/
theorem C1_counterexample :
    (mintedClaim 1 ['a'] 0).exp = some (((2592000 * 1000 : Nat) / 1000 : Nat) : Int) ∧
    parsePaidCookie demoHmac demoDec
        (createPaidCookie demoHmac demoEnc 1 ['a'] ['s'] 0) ['s'] (2592000 * 1000)
      = some (mintedClaim 1 ['a'] 0) := by decide

theorem C1_token_roundtrip_amended_witness :
    (demoDec (demoEnc (mintedClaim 7 ['a'] 5000)) = some (mintedClaim 7 ['a'] 5000)) ∧
    (6000 / 1000 ≤ 5000 / 1000 + PAID_COOKIE_MAX_AGE →
      parsePaidCookie demoHmac demoDec
          (createPaidCookie demoHmac demoEnc 7 ['a'] ['s'] 5000) ['s'] 6000
        = some (mintedClaim 7 ['a'] 5000)) ∧
    (5000 / 1000 + PAID_COOKIE_MAX_AGE < 6000 / 1000 →
      parsePaidCookie demoHmac demoDec
          (createPaidCookie demoHmac demoEnc 7 ['a'] ['s'] 5000) ['s'] 6000
        = none) :=
  ⟨by decide,
   (C1_token_roundtrip_amended demoHmac demoEnc demoDec 7 ['a'] ['s'] 5000 6000 (by decide)).1,
   (C1_token_roundtrip_amended demoHmac demoEnc demoDec 7 ['a'] ['s'] 5000 6000 (by decide)).2⟩

theorem C9_falsy_exp_never_expires_witness :
    (demoDec (('a' :: '|' :: 'b' :: '|' :: '0' :: '|' :: []) : Str)
        = some ⟨['a'], ['b'], 0, none⟩) ∧
    parsePaidCookie demoHmac demoDec
        (('a' :: '|' :: 'b' :: '|' :: '0' :: '|' :: []) ++
          '.' :: signPayload demoHmac ('a' :: '|' :: 'b' :: '|' :: '0' :: '|' :: []) ['s'])
        ['s'] 999999999999
      = some ⟨['a'], ['b'], 0, none⟩ :=
  ⟨by decide,
   C9_falsy_exp_never_expires demoHmac demoDec _ ['s'] ⟨['a'], ['b'], 0, none⟩
     (by decide) (Or.inl rfl) 999999999999⟩

/-! ## Rate limiter (worker.js 142-183)

The Cache API backing store is modelled as the optional current entry for the
(action, ip) key.  `cache.put` with `Cache-Control: max-age=ttl` stores the
window state together with the absolute time `now + ttl*1000` at which the
entry's freshness lifetime ends; `cache.match` returns the entry while `now`
is at most that time. -/

structure RLConfig where
  window : Nat
  max : Nat
deriving DecidableEq, Repr

/-- The JSON window state `{count, windowStart}` stored in the cache. -/
structure RLData where
  count : Nat
  windowStart : Nat
deriving DecidableEq, Repr

structure RLEntry where
  data : RLData
  expiresAt : Nat
deriving DecidableEq, Repr

structure RLResult where
  allowed : Bool
  remaining : Nat
  resetAt : Nat
deriving DecidableEq, Repr

def RATE_LIMIT_PAID_LOGIN : RLConfig := ⟨60, 5⟩
def RATE_LIMIT_GET_RATINGS : RLConfig := ⟨60, 30⟩
def RATE_LIMIT_POST_RATINGS : RLConfig := ⟨60, 5⟩

/-- Lines 149-154: the state read back from the cache, defaulting to
`{count: 0, windowStart: now}` on a miss (or an entry past its TTL). -/
def rlCached (entry : Option RLEntry) (now : Nat) : RLData :=
  match entry with
  | some e => if now ≤ e.expiresAt then e.data else { count := 0, windowStart := now }
  | none => { count := 0, windowStart := now }

/-- Lines 159-161: reset to a fresh window when the stored one is stale. -/
def rlFresh (config : RLConfig) (d : RLData) (now : Nat) : RLData :=
  if now - d.windowStart > config.window * 1000 then { count := 0, windowStart := now } else d

/-- Lines 163-182: increment the count, persist with TTL equal to the
remaining window time, and decide `allowed = count <= max`. -/
def rlStep (config : RLConfig) (d1 : RLData) (now : Nat) : RLResult × Option RLEntry :=
  (⟨decide (d1.count + 1 ≤ config.max),
    config.max - (d1.count + 1),
    d1.windowStart + config.window * 1000⟩,
   some ⟨⟨d1.count + 1, d1.windowStart⟩,
         now + Nat.max 1 ((d1.windowStart + config.window * 1000 - now + 999) / 1000) * 1000⟩)

/-- `checkRateLimit(ip, action)` (worker.js 142-183); an unconfigured action is
unconditionally allowed (line 144). -/
def checkRateLimit (cfg : Option RLConfig) (entry : Option RLEntry) (now : Nat) :
    RLResult × Option RLEntry :=
  match cfg with
  | none => (⟨true, 999, 0⟩, entry)
  | some config => rlStep config (rlFresh config (rlCached entry now) now) now

/-- Run a sequence of `checkRateLimit` calls for the same key, threading the
cache entry, and collect the `allowed` flags. -/
def runRL (cfg : Option RLConfig) : Option RLEntry → List Nat → List Bool × Option RLEntry
  | st, [] => ([], st)
  | st, t :: ts =>
    ((checkRateLimit cfg st t).1.allowed :: (runRL cfg (checkRateLimit cfg st t).2 ts).1,
     (runRL cfg (checkRateLimit cfg st t).2 ts).2)

theorem rl_expiry_bound (t0 wMs t : Nat) (h : t ≤ t0 + wMs) :
    t0 + wMs ≤ t + Nat.max 1 ((t0 + wMs - t + 999) / 1000) * 1000 := by
  have key : ∀ q : Nat, (t0 + wMs - t + 999) / 1000 ≤ q → t0 + wMs ≤ t + q * 1000 := by
    intro q hq
    omega
  exact key _ (Nat.le_max_right _ _)

theorem checkRateLimit_in_window (c : RLConfig) (k t0 e t : Nat)
    (ht : t ≤ t0 + c.window * 1000) (he : t ≤ e) :
    checkRateLimit (some c) (some ⟨⟨k, t0⟩, e⟩) t
      = (⟨decide (k + 1 ≤ c.max), c.max - (k + 1), t0 + c.window * 1000⟩,
         some ⟨⟨k + 1, t0⟩,
               t + Nat.max 1 ((t0 + c.window * 1000 - t + 999) / 1000) * 1000⟩) := by
  have h1 : rlCached (some ⟨⟨k, t0⟩, e⟩) t = ⟨k, t0⟩ := by
    simp [rlCached, he]
  have h2 : rlFresh c ⟨k, t0⟩ t = ⟨k, t0⟩ := by
    unfold rlFresh
    rw [if_neg (by omega : ¬ (t - t0 > c.window * 1000))]
  show rlStep c (rlFresh c (rlCached (some ⟨⟨k, t0⟩, e⟩) t) t) t = _
  rw [h1, h2]
  rfl

theorem runRL_in_window (c : RLConfig) (t0 : Nat) :
    ∀ (ts : List Nat) (k e : Nat),
      (∀ t ∈ ts, t0 ≤ t ∧ t ≤ t0 + c.window * 1000) →
      t0 + c.window * 1000 ≤ e →
      ∃ e', t0 + c.window * 1000 ≤ e' ∧
        runRL (some c) (some ⟨⟨k, t0⟩, e⟩) ts
          = ((List.range ts.length).map (fun i => decide (k + i + 1 ≤ c.max)),
             some ⟨⟨k + ts.length, t0⟩, e'⟩) := by
  intro ts
  induction ts with
  | nil =>
    intro k e _ he
    exact ⟨e, he, rfl⟩
  | cons t ts ih =>
    intro k e h he
    have ht := h t (List.mem_cons_self _ _)
    have hstep := checkRateLimit_in_window c k t0 e t ht.2 (le_trans ht.2 he)
    have he' : t0 + c.window * 1000
        ≤ t + Nat.max 1 ((t0 + c.window * 1000 - t + 999) / 1000) * 1000 :=
      rl_expiry_bound t0 (c.window * 1000) t ht.2
    obtain ⟨e2, he2, hrec⟩ :=
      ih (k + 1) (t + Nat.max 1 ((t0 + c.window * 1000 - t + 999) / 1000) * 1000)
        (fun u hu => h u (List.mem_cons_of_mem _ hu)) he'
    have hl : (decide (k + 1 ≤ c.max))
        :: List.map (fun i => decide (k + 1 + i + 1 ≤ c.max)) (List.range ts.length)
        = List.map (fun i => decide (k + i + 1 ≤ c.max)) (List.range (ts.length + 1)) := by
      rw [List.range_succ_eq_map, List.map_cons, List.map_map]
      simp only [Nat.add_zero]
      congr 1
      apply List.map_congr_left
      intro i _
      simp only [Function.comp_apply]
      exact decide_eq_decide.mpr (by omega)
    refine ⟨e2, he2, ?_⟩
    simp only [runRL, hstep, hrec, List.length_cons]
    rw [← hl]
    have hc : k + 1 + ts.length = k + (ts.length + 1) := by omega
    rw [hc]

theorem rl_first_call (c : RLConfig) (t0 : Nat) :
    checkRateLimit (some c) none t0
      = (⟨decide (1 ≤ c.max), c.max - 1, t0 + c.window * 1000⟩,
         some ⟨⟨1, t0⟩,
               t0 + Nat.max 1 ((t0 + c.window * 1000 - t0 + 999) / 1000) * 1000⟩) := by
  have h2 : rlFresh c ⟨0, t0⟩ t0 = ⟨0, t0⟩ := by
    unfold rlFresh
    rw [if_neg (by omega : ¬ (t0 - t0 > c.window * 1000))]
  show rlStep c (rlFresh c (rlCached none t0) t0) t0 = _
  rw [show rlCached none t0 = ⟨0, t0⟩ from rfl, h2]
  rfl

theorem runRL_append (cfg : Option RLConfig) (l1 l2 : List Nat) :
    ∀ st, runRL cfg st (l1 ++ l2)
      = ((runRL cfg st l1).1 ++ (runRL cfg (runRL cfg st l1).2 l2).1,
         (runRL cfg (runRL cfg st l1).2 l2).2) := by
  induction l1 with
  | nil => intro st; rfl
  | cons t l1 ih =>
    intro st
    simp only [List.cons_append, runRL, List.append_eq, ih]

/-- Scenario A of the fixed-window claim: `max+1` calls inside one window;
the `(max+1)`-th (index `max`, zero-based) is denied. -/
theorem rl_window_deny (c : RLConfig) (t0 : Nat) (rest : List Nat)
    (hlen : rest.length = c.max)
    (hin : ∀ t ∈ rest, t0 ≤ t ∧ t ≤ t0 + c.window * 1000) :
    ((runRL (some c) none (t0 :: rest)).1)[c.max]? = some false := by
  have he1 : t0 + c.window * 1000
      ≤ t0 + Nat.max 1 ((t0 + c.window * 1000 - t0 + 999) / 1000) * 1000 :=
    rl_expiry_bound t0 (c.window * 1000) t0 (by omega)
  obtain ⟨e2, _, hrec⟩ := runRL_in_window c t0 rest 1 _ hin he1
  have hall : (runRL (some c) none (t0 :: rest)).1
      = decide (1 ≤ c.max)
        :: (List.range rest.length).map (fun i => decide (1 + i + 1 ≤ c.max)) := by
    simp only [runRL, rl_first_call, hrec]
  rw [hall, hlen]
  cases hm : c.max with
  | zero => simp
  | succ m =>
    rw [List.getElem?_cons_succ, List.getElem?_map, List.getElem?_range (by omega)]
    simp only [Option.map_some']
    exact congrArg some (decide_eq_false_iff_not.mpr (by omega : ¬ (1 + m + 1 ≤ m + 1)))

/-- Scenario B of the fixed-window claim: after calls inside one window, a call
past the window end is allowed again (whether the cache entry survived or
expired). -/
theorem rl_window_reset (c : RLConfig) (t0 : Nat) (rest : List Nat) (tLate : Nat)
    (hmax : 1 ≤ c.max)
    (hin : ∀ t ∈ rest, t0 ≤ t ∧ t ≤ t0 + c.window * 1000)
    (hlate : tLate - t0 > c.window * 1000) :
    ((runRL (some c) none ((t0 :: rest) ++ [tLate])).1).getLast? = some true := by
  have he1 : t0 + c.window * 1000
      ≤ t0 + Nat.max 1 ((t0 + c.window * 1000 - t0 + 999) / 1000) * 1000 :=
    rl_expiry_bound t0 (c.window * 1000) t0 (by omega)
  obtain ⟨e2, _, hrec⟩ := runRL_in_window c t0 rest 1 _ hin he1
  have hpre : runRL (some c) none (t0 :: rest)
      = (decide (1 ≤ c.max)
          :: (List.range rest.length).map (fun i => decide (1 + i + 1 ≤ c.max)),
         some ⟨⟨1 + rest.length, t0⟩, e2⟩) := by
    simp only [runRL, rl_first_call, hrec]
  have hfinal : ((checkRateLimit (some c) (some ⟨⟨1 + rest.length, t0⟩, e2⟩) tLate).1).allowed
      = true := by
    rcases le_or_lt tLate e2 with hle | hgt
    · have h1 : rlCached (some ⟨⟨1 + rest.length, t0⟩, e2⟩) tLate = ⟨1 + rest.length, t0⟩ := by
        simp [rlCached, hle]
      have h2 : rlFresh c ⟨1 + rest.length, t0⟩ tLate = ⟨0, tLate⟩ := by
        unfold rlFresh
        rw [if_pos (hlate : tLate - t0 > c.window * 1000)]
      show ((rlStep c (rlFresh c (rlCached (some ⟨⟨1 + rest.length, t0⟩, e2⟩) tLate) tLate)
              tLate).1).allowed = true
      rw [h1, h2]
      simp only [rlStep, decide_eq_true_eq]
      omega
    · have h1 : rlCached (some ⟨⟨1 + rest.length, t0⟩, e2⟩) tLate = ⟨0, tLate⟩ := by
        simp only [rlCached]
        rw [if_neg (by omega : ¬ (tLate ≤ e2))]
      have h2 : rlFresh c ⟨0, tLate⟩ tLate = ⟨0, tLate⟩ := by
        unfold rlFresh
        rw [if_neg (by omega : ¬ (tLate - tLate > c.window * 1000))]
      show ((rlStep c (rlFresh c (rlCached (some ⟨⟨1 + rest.length, t0⟩, e2⟩) tLate) tLate)
              tLate).1).allowed = true
      rw [h1, h2]
      simp only [rlStep, decide_eq_true_eq]
      omega
  rw [runRL_append, hpre]
  simp only [runRL]
  rw [List.getLast?_concat]
  rw [hfinal]

/-- Claim C4: fixed-window rate limiting.  Starting from an empty cache,
`max+1` calls all inside one window (each call time `t` with
`t - windowStart ≤ windowLength`) produce `allowed = false` on the
`(max+1)`-th call, and `1 + restB.length` calls inside the window followed by
one call strictly after the window end (`t - windowStart > windowLength`)
produce `allowed = true` on that later call. -/
theorem C4_fixed_window_rate_limit (c : RLConfig) (t0 : Nat)
    (restA restB : List Nat) (tLate : Nat)
    (hmax : 1 ≤ c.max)
    (hlenA : restA.length = c.max)
    (hinA : ∀ t ∈ restA, t0 ≤ t ∧ t ≤ t0 + c.window * 1000)
    (hinB : ∀ t ∈ restB, t0 ≤ t ∧ t ≤ t0 + c.window * 1000)
    (hlate : tLate - t0 > c.window * 1000) :
    ((runRL (some c) none (t0 :: restA)).1)[c.max]? = some false ∧
    ((runRL (some c) none ((t0 :: restB) ++ [tLate])).1).getLast? = some true :=
  ⟨rl_window_deny c t0 restA hlenA hinA,
   rl_window_reset c t0 restB tLate hmax hinB hlate⟩

theorem C4_fixed_window_rate_limit_witness :
    (1 ≤ RATE_LIMIT_PAID_LOGIN.max ∧
     ([1000, 2000, 3000, 4000, 5000] : List Nat).length = RATE_LIMIT_PAID_LOGIN.max ∧
     (∀ t ∈ ([1000, 2000, 3000, 4000, 5000] : List Nat),
        0 ≤ t ∧ t ≤ 0 + RATE_LIMIT_PAID_LOGIN.window * 1000) ∧
     (∀ t ∈ ([1000, 2000, 3000, 4000] : List Nat),
        0 ≤ t ∧ t ≤ 0 + RATE_LIMIT_PAID_LOGIN.window * 1000) ∧
     60001 - 0 > RATE_LIMIT_PAID_LOGIN.window * 1000) ∧
    (((runRL (some RATE_LIMIT_PAID_LOGIN) none
        (0 :: [1000, 2000, 3000, 4000, 5000])).1)[RATE_LIMIT_PAID_LOGIN.max]? = some false ∧
     ((runRL (some RATE_LIMIT_PAID_LOGIN) none
        ((0 :: [1000, 2000, 3000, 4000]) ++ [60001])).1).getLast? = some true) :=
  ⟨⟨by decide, by decide, by decide, by decide, by decide⟩,
   C4_fixed_window_rate_limit RATE_LIMIT_PAID_LOGIN 0
     [1000, 2000, 3000, 4000, 5000] [1000, 2000, 3000, 4000] 60001
     (by decide) (by decide) (by decide) (by decide) (by decide)⟩

/-! ## Paid course gate (worker.js 305-348) -/

/-- Observable side effects of a handler, in order of occurrence. -/
inductive Effect
  | tokenParse
  | authorityCall
  | rateLimitCheck
  | cacheRead
  | cachePut
  | cacheDelete
deriving DecidableEq, Repr

inductive GateOutcome
  | notFound404
  | redirect302 (url : Str)
  | unavailable503
  | loginPage
deriving DecidableEq, Repr

/-- Lines 316-348: the cookie check of the gate, after the id was validated.
`cookie` is the value of the request's `__paid_<courseId>` cookie (`none`
when absent; an empty value is falsy and skipped like an absent one).
`driveUrl` is the authority's `getDriveUrl` answer (`none` models failure or
a missing url, which yields the 503 page). -/
def gateCookieCheck (hmac : Hmac) (dec : ClaimDec) (courseId : Int)
    (cookie : Option Str) (secret : Str) (driveUrl : Option Str) (nowMs : Nat) :
    GateOutcome × List Effect :=
  match cookie with
  | none => (.loginPage, [])
  | some v =>
    if v = [] then (.loginPage, [])
    else
      match parsePaidCookie hmac dec v secret nowMs with
      | some session =>
        if session.courseId = intToStr courseId then
          match driveUrl with
          | none => (.unavailable503, [.tokenParse, .authorityCall])
          | some u => (.redirect302 u, [.tokenParse, .authorityCall])
        else (.loginPage, [.tokenParse])
      | none => (.loginPage, [.tokenParse])

/-- `handlePaidCourseGate` (worker.js 305-348).  `seg` is the `:courseId`
path segment (`parts[3]`; an empty segment is falsy and yields `NaN`). -/
def handlePaidCourseGate (hmac : Hmac) (dec : ClaimDec) (seg : Str)
    (cookie : Option Str) (secret : Str) (driveUrl : Option Str) (nowMs : Nat) :
    GateOutcome × List Effect :=
  match parseIntJs seg with
  | none => (.notFound404, [])
  | some courseId =>
    if courseId < 1 then (.notFound404, [])
    else gateCookieCheck hmac dec courseId cookie secret driveUrl nowMs

theorem handlePaidCourseGate_someId (hmac : Hmac) (dec : ClaimDec) (seg : Str)
    (cookie : Option Str) (secret : Str) (driveUrl : Option Str) (nowMs : Nat)
    (B : Int) (hseg : parseIntJs seg = some B) (hB : ¬ B < 1) :
    handlePaidCourseGate hmac dec seg cookie secret driveUrl nowMs
      = gateCookieCheck hmac dec B cookie secret driveUrl nowMs := by
  simp only [handlePaidCourseGate, hseg]
  rw [if_neg hB]

theorem intToStr_of_pos (B : Int) (h : 1 ≤ B) : intToStr B = natToStr B.toNat := by
  unfold intToStr
  rw [if_neg (by omega : ¬ B < 0)]

theorem createPaidCookie_ne_nil (hmac : Hmac) (enc : ClaimEnc) (cid : Nat)
    (email secret : Str) (mintMs : Nat) :
    createPaidCookie hmac enc cid email secret mintMs ≠ [] := by
  unfold createPaidCookie
  simp

theorem parse_minted_cases (hmac : Hmac) (enc : ClaimEnc) (dec : ClaimDec)
    (cid : Nat) (email secret : Str) (mintMs nowMs : Nat)
    (hdec : dec (enc (mintedClaim cid email mintMs)) = some (mintedClaim cid email mintMs)) :
    parsePaidCookie hmac dec (createPaidCookie hmac enc cid email secret mintMs) secret nowMs
        = none ∨
    parsePaidCookie hmac dec (createPaidCookie hmac enc cid email secret mintMs) secret nowMs
        = some (mintedClaim cid email mintMs) := by
  rw [parse_create_eq hmac enc dec cid email secret mintMs nowMs hdec]
  by_cases h : (((mintMs / 1000 : Nat) : Int) + (PAID_COOKIE_MAX_AGE : Int) ≠ 0 ∧
      ((mintMs / 1000 : Nat) : Int) + (PAID_COOKIE_MAX_AGE : Int) < ((nowMs / 1000 : Nat) : Int))
  · left
    rw [if_pos h]
  · right
    rw [if_neg h]

/-- Claim C2: a cookie minted for course `A`, presented to the gate for a
request addressing course `B ≠ A`, always yields the login (challenge) page —
never a redirect — at every time, whether or not the token is expired. -/
theorem C2_resource_isolation (hmac : Hmac) (enc : ClaimEnc) (dec : ClaimDec)
    (A : Nat) (B : Int) (seg email secret : Str) (mintMs nowMs : Nat)
    (driveUrl : Option Str)
    (_hA : 1 ≤ A) (hB : 1 ≤ B) (hne : (A : Int) ≠ B)
    (hseg : parseIntJs seg = some B)
    (hdec : dec (enc (mintedClaim A email mintMs)) = some (mintedClaim A email mintMs)) :
    (handlePaidCourseGate hmac dec seg
        (some (createPaidCookie hmac enc A email secret mintMs)) secret driveUrl nowMs).1
      = .loginPage := by
  rw [handlePaidCourseGate_someId hmac dec seg _ secret driveUrl nowMs B hseg (by omega)]
  simp only [gateCookieCheck]
  rw [if_neg (createPaidCookie_ne_nil hmac enc A email secret mintMs)]
  rcases parse_minted_cases hmac enc dec A email secret mintMs nowMs hdec with hp | hp
  · simp only [hp]
  · simp only [hp]
    rw [if_neg]
    intro he
    have : natToStr A = natToStr B.toNat := by
      rw [← intToStr_of_pos B hB]
      exact he
    have := natToStr_inj this
    omega

theorem C2_resource_isolation_witness :
    (1 ≤ 1 ∧ (1 : Int) ≤ 2 ∧ ((1 : Nat) : Int) ≠ 2 ∧
     parseIntJs ['2'] = some 2 ∧
     demoDec (demoEnc (mintedClaim 1 ['a'] 0)) = some (mintedClaim 1 ['a'] 0)) ∧
    (handlePaidCourseGate demoHmac demoDec ['2']
        (some (createPaidCookie demoHmac demoEnc 1 ['a'] ['s'] 0)) ['s']
        (some ['u']) 0).1
      = .loginPage :=
  ⟨⟨by decide, by decide, by decide, by decide, by decide⟩,
   C2_resource_isolation demoHmac demoEnc demoDec 1 2 ['2'] ['a'] ['s'] 0 0 (some ['u'])
     (by decide) (by decide) (by decide) (by decide) (by decide)⟩

/-- Claim C8: a path segment that does not parse as a positive integer makes
the gate answer 404 Not Found with no cookie, token, or authority work at all
(the effect trace is empty). -/
theorem C8_gate_invalid_id (hmac : Hmac) (dec : ClaimDec) (seg : Str)
    (cookie : Option Str) (secret : Str) (driveUrl : Option Str) (nowMs : Nat)
    (h : parseIntJs seg = none ∨ ∃ k, parseIntJs seg = some k ∧ k < 1) :
    handlePaidCourseGate hmac dec seg cookie secret driveUrl nowMs
      = (.notFound404, []) := by
  rcases h with h | ⟨k, hk, hlt⟩
  · simp only [handlePaidCourseGate, h]
  · simp only [handlePaidCourseGate, hk]
    rw [if_pos hlt]

theorem C8_gate_invalid_id_witness :
    (parseIntJs ['a', 'b', 'c'] = none ∨
      ∃ k, parseIntJs ['a', 'b', 'c'] = some k ∧ k < 1) ∧
    handlePaidCourseGate demoHmac demoDec ['a', 'b', 'c']
        (some (createPaidCookie demoHmac demoEnc 1 ['a'] ['s'] 0)) ['s']
        (some ['u']) 0
      = (.notFound404, []) :=
  ⟨Or.inl (by decide),
   C8_gate_invalid_id demoHmac demoDec ['a', 'b', 'c']
     (some (createPaidCookie demoHmac demoEnc 1 ['a'] ['s'] 0)) ['s'] (some ['u']) 0
     (Or.inl (by decide))⟩

/-! ## Origin allow-list (worker.js 102-106) -/

/-- `isOriginAllowed(request, env)`: a request without an `Origin` header is
always allowed; otherwise the header must equal `env.ALLOWED_ORIGIN`. -/
def isOriginAllowed (origin : Option Str) (allowedOrigin : Str) : Bool :=
  match origin with
  | none => true
  | some o => o == allowedOrigin

/-! ## Login handler (worker.js 354-457) -/

def MAX_BODY_SIZE : Nat := 1024

/-- Translation of the email shape regex `/^[^\s@]+@[^\s@]+\.[^\s@]+$/`:
exactly one `'@'` (every character class excludes it); a nonempty local part
with no whitespace; a domain part with no whitespace containing a `'.'` with
at least one character on each side. -/
def emailShapeOk (s : Str) : Bool :=
  s.count '@' == 1 &&
  !(s.takeWhile (fun c => c != '@')).isEmpty &&
  (s.takeWhile (fun c => c != '@')).all (fun c => !(isJsWs c)) &&
  ((s.dropWhile (fun c => c != '@')).tail).all (fun c => !(isJsWs c)) &&
  (List.range ((s.dropWhile (fun c => c != '@')).tail).length).any (fun i =>
    ((s.dropWhile (fun c => c != '@')).tail).getD i '@' == '.' &&
    decide (1 ≤ i) && decide (i + 1 < ((s.dropWhile (fun c => c != '@')).tail).length))

/-- The decoded JSON login body: each field as the worker reads it
(`email`/`password` when string-typed, `courseId` as the string `parseInt`
coerces it to; `none` models a missing or non-string field). -/
structure LoginBody where
  email : Option Str
  password : Option Str
  courseId : Option Str
deriving DecidableEq, Repr

/-- The external `JSON.parse` for login bodies, abstract (`none` = throw). -/
abbrev LoginBodyParse := Str → Option LoginBody

structure LoginReq where
  origin : Option Str
  method : Str
  contentType : Option Str
  body : Str
deriving DecidableEq, Repr

inductive LoginResp
  | origin403
  | method405
  | badContentType400
  | rate429
  | tooLarge400
  | badJson400
  | badEmail400
  | badPassword400
  | badCourse400
  | upstream502
  | invalid401
  | success (cookie : Str) (redirect : Str)
deriving DecidableEq, Repr

/-- Line 399: `typeof body.email === 'string' ? body.email.trim().toLowerCase() : ''`. -/
def loginEmail (b : LoginBody) : Str :=
  match b.email with
  | some s => toLowerAscii (trimJs s)
  | none => []

/-- Line 404: `!email || !/^[^\s@]+@[^\s@]+\.[^\s@]+$/.test(email)` negated. -/
def loginEmailOk (b : LoginBody) : Bool :=
  !(loginEmail b).isEmpty && emailShapeOk (loginEmail b)

def loginPassword (b : LoginBody) : Str := b.password.getD []

/-- Line 407: `!password || password.length < 4 || password.length > 128` negated. -/
def loginPasswordOk (b : LoginBody) : Bool :=
  !(loginPassword b).isEmpty &&
  decide (4 ≤ (loginPassword b).length) && decide ((loginPassword b).length ≤ 128)

/-- Line 401: `parseInt(body.courseId, 10)` (`none` = `NaN`). -/
def loginCourseId (b : LoginBody) : Option Int :=
  match b.courseId with
  | none => none
  | some s => parseIntJs s

/-- `handlePaidLogin` (worker.js 354-457).  `authority` is the Apps-Script
verdict: `none` models a failed/timeout/non-OK/malformed remote call,
`some v` a response with `valid = v`. -/
def handlePaidLogin (hmac : Hmac) (enc : ClaimEnc) (parseJson : LoginBodyParse)
    (req : LoginReq) (allowedOrigin secret : Str) (rlEntry : Option RLEntry)
    (nowMs : Nat) (authority : Option Bool) : LoginResp × List Effect :=
  if !(isOriginAllowed req.origin allowedOrigin) then (.origin403, [])
  else if !(req.method == "POST".toList) then (.method405, [])
  else if !(decide ("application/json".toList <:+: req.contentType.getD [])) then
    (.badContentType400, [])
  else if !((checkRateLimit (some RATE_LIMIT_PAID_LOGIN) rlEntry nowMs).1.allowed) then
    (.rate429, [.rateLimitCheck])
  else if MAX_BODY_SIZE < req.body.length then (.tooLarge400, [.rateLimitCheck])
  else
    match parseJson req.body with
    | none => (.badJson400, [.rateLimitCheck])
    | some b =>
      if !(loginEmailOk b) then (.badEmail400, [.rateLimitCheck])
      else if !(loginPasswordOk b) then (.badPassword400, [.rateLimitCheck])
      else
        match loginCourseId b with
        | none => (.badCourse400, [.rateLimitCheck])
        | some k =>
          if k < 1 then (.badCourse400, [.rateLimitCheck])
          else
            match authority with
            | none => (.upstream502, [.rateLimitCheck, .authorityCall])
            | some false => (.invalid401, [.rateLimitCheck, .authorityCall])
            | some true =>
              (.success (createPaidCookie hmac enc k.toNat (loginEmail b) secret nowMs)
                 ("/course/paid/".toList ++ natToStr k.toNat),
               [.rateLimitCheck, .authorityCall])

/-! ### The nine validation checks of the login handler, named -/

def lcOrigin (req : LoginReq) (allowedOrigin : Str) : Bool :=
  isOriginAllowed req.origin allowedOrigin

def lcMethod (req : LoginReq) : Bool := req.method == "POST".toList

def lcCT (req : LoginReq) : Bool :=
  decide ("application/json".toList <:+: req.contentType.getD [])

def lcRate (rlEntry : Option RLEntry) (nowMs : Nat) : Bool :=
  (checkRateLimit (some RATE_LIMIT_PAID_LOGIN) rlEntry nowMs).1.allowed

def lcSize (req : LoginReq) : Bool := decide (req.body.length ≤ MAX_BODY_SIZE)

def lcJson (parseJson : LoginBodyParse) (req : LoginReq) : Bool :=
  (parseJson req.body).isSome

def lcEmail (parseJson : LoginBodyParse) (req : LoginReq) : Bool :=
  match parseJson req.body with
  | some b => loginEmailOk b
  | none => false

def lcPassword (parseJson : LoginBodyParse) (req : LoginReq) : Bool :=
  match parseJson req.body with
  | some b => loginPasswordOk b
  | none => false

def lcCourse (parseJson : LoginBodyParse) (req : LoginReq) : Bool :=
  match parseJson req.body with
  | some b =>
    match loginCourseId b with
    | some k => decide (1 ≤ k)
    | none => false
  | none => false

/-- Claim C5: the login handler applies origin, method, content-type, rate
limit, body size, JSON parse, email shape, password length and course-id
checks in exactly that order — each rejection implies every earlier check
passed and the corresponding check failed — and the remote authority is
called exactly when all nine checks pass. -/
theorem C5_login_validation_order (hmac : Hmac) (enc : ClaimEnc)
    (parseJson : LoginBodyParse) (req : LoginReq) (allowedOrigin secret : Str)
    (rlEntry : Option RLEntry) (nowMs : Nat) (authority : Option Bool) :
    (Effect.authorityCall
        ∈ (handlePaidLogin hmac enc parseJson req allowedOrigin secret rlEntry nowMs authority).2 ↔
      (lcOrigin req allowedOrigin ∧ lcMethod req ∧ lcCT req ∧ lcRate rlEntry nowMs ∧
       lcSize req ∧ lcJson parseJson req ∧ lcEmail parseJson req ∧
       lcPassword parseJson req ∧ lcCourse parseJson req)) ∧
    ((handlePaidLogin hmac enc parseJson req allowedOrigin secret rlEntry nowMs authority).1
        = .origin403 ↔ ¬ lcOrigin req allowedOrigin) ∧
    ((handlePaidLogin hmac enc parseJson req allowedOrigin secret rlEntry nowMs authority).1
        = .method405 ↔ (lcOrigin req allowedOrigin ∧ ¬ lcMethod req)) ∧
    ((handlePaidLogin hmac enc parseJson req allowedOrigin secret rlEntry nowMs authority).1
        = .badContentType400 ↔
      (lcOrigin req allowedOrigin ∧ lcMethod req ∧ ¬ lcCT req)) ∧
    ((handlePaidLogin hmac enc parseJson req allowedOrigin secret rlEntry nowMs authority).1
        = .rate429 ↔
      (lcOrigin req allowedOrigin ∧ lcMethod req ∧ lcCT req ∧ ¬ lcRate rlEntry nowMs)) ∧
    ((handlePaidLogin hmac enc parseJson req allowedOrigin secret rlEntry nowMs authority).1
        = .tooLarge400 ↔
      (lcOrigin req allowedOrigin ∧ lcMethod req ∧ lcCT req ∧ lcRate rlEntry nowMs ∧
       ¬ lcSize req)) ∧
    ((handlePaidLogin hmac enc parseJson req allowedOrigin secret rlEntry nowMs authority).1
        = .badJson400 ↔
      (lcOrigin req allowedOrigin ∧ lcMethod req ∧ lcCT req ∧ lcRate rlEntry nowMs ∧
       lcSize req ∧ ¬ lcJson parseJson req)) ∧
    ((handlePaidLogin hmac enc parseJson req allowedOrigin secret rlEntry nowMs authority).1
        = .badEmail400 ↔
      (lcOrigin req allowedOrigin ∧ lcMethod req ∧ lcCT req ∧ lcRate rlEntry nowMs ∧
       lcSize req ∧ lcJson parseJson req ∧ ¬ lcEmail parseJson req)) ∧
    ((handlePaidLogin hmac enc parseJson req allowedOrigin secret rlEntry nowMs authority).1
        = .badPassword400 ↔
      (lcOrigin req allowedOrigin ∧ lcMethod req ∧ lcCT req ∧ lcRate rlEntry nowMs ∧
       lcSize req ∧ lcJson parseJson req ∧ lcEmail parseJson req ∧
       ¬ lcPassword parseJson req)) ∧
    ((handlePaidLogin hmac enc parseJson req allowedOrigin secret rlEntry nowMs authority).1
        = .badCourse400 ↔
      (lcOrigin req allowedOrigin ∧ lcMethod req ∧ lcCT req ∧ lcRate rlEntry nowMs ∧
       lcSize req ∧ lcJson parseJson req ∧ lcEmail parseJson req ∧
       lcPassword parseJson req ∧ ¬ lcCourse parseJson req)) := by
  by_cases h1 : isOriginAllowed req.origin allowedOrigin
  · by_cases h2 : req.method == "POST".toList
    · by_cases h3 : ("application/json".toList <:+: req.contentType.getD [])
      · by_cases h4 : (checkRateLimit (some RATE_LIMIT_PAID_LOGIN) rlEntry nowMs).1.allowed
        · by_cases h5 : MAX_BODY_SIZE < req.body.length
          · simp_all [handlePaidLogin, lcOrigin, lcMethod, lcCT, lcRate, lcSize,
              lcJson, lcEmail, lcPassword, lcCourse]
          · cases hb : parseJson req.body with
            | none =>
              simp_all [handlePaidLogin, lcOrigin, lcMethod, lcCT, lcRate, lcSize,
                lcJson, lcEmail, lcPassword, lcCourse, if_neg h5]
            | some b =>
              by_cases h7 : loginEmailOk b
              · by_cases h8 : loginPasswordOk b
                · cases hk : loginCourseId b with
                  | none =>
                    simp_all [handlePaidLogin, lcOrigin, lcMethod, lcCT, lcRate, lcSize,
                      lcJson, lcEmail, lcPassword, lcCourse, if_neg h5]
                  | some k =>
                    by_cases h9 : k < 1
                    · simp_all [handlePaidLogin, lcOrigin, lcMethod, lcCT, lcRate, lcSize,
                        lcJson, lcEmail, lcPassword, lcCourse, if_neg h5,
                        decide_eq_false (show ¬ ((1 : Int) ≤ k) by omega)]
                    · cases authority with
                      | none =>
                        simp_all [handlePaidLogin, lcOrigin, lcMethod, lcCT, lcRate, lcSize,
                          lcJson, lcEmail, lcPassword, lcCourse, if_neg h5, if_neg h9,
                          decide_eq_true (show (1 : Int) ≤ k by omega)]
                      | some v =>
                        cases v <;>
                          simp_all [handlePaidLogin, lcOrigin, lcMethod, lcCT, lcRate, lcSize,
                            lcJson, lcEmail, lcPassword, lcCourse, if_neg h5, if_neg h9,
                            decide_eq_true (show (1 : Int) ≤ k by omega)]
                · simp_all [handlePaidLogin, lcOrigin, lcMethod, lcCT, lcRate, lcSize,
                    lcJson, lcEmail, lcPassword, lcCourse, if_neg h5]
              · simp_all [handlePaidLogin, lcOrigin, lcMethod, lcCT, lcRate, lcSize,
                  lcJson, lcEmail, lcPassword, lcCourse, if_neg h5]
        · simp_all [handlePaidLogin, lcOrigin, lcMethod, lcCT, lcRate, lcSize,
            lcJson, lcEmail, lcPassword, lcCourse]
      · simp_all [handlePaidLogin, lcOrigin, lcMethod, lcCT, lcRate, lcSize,
          lcJson, lcEmail, lcPassword, lcCourse]
    · simp_all [handlePaidLogin, lcOrigin, lcMethod, lcCT, lcRate, lcSize,
        lcJson, lcEmail, lcPassword, lcCourse]
  · simp_all [handlePaidLogin, lcOrigin, lcMethod, lcCT, lcRate, lcSize,
      lcJson, lcEmail, lcPassword, lcCourse]

/-! ## Ratings handlers (worker.js 463-597) -/

def RATINGS_CACHE_TTL : Nat := 300

/-- An entry of the ratings response cache: the cached JSON payload plus the
absolute time (ms) at which its `max-age` freshness ends. -/
structure RatingsEntry where
  value : Str
  expiresAt : Nat
deriving DecidableEq, Repr

/-- The ratings cache, keyed by course id
(`https://ratings-cache.internal/ratings/:id`). -/
abbrev RatingsCache := Nat → Option RatingsEntry

/-- `cache.match` for the ratings cache: an entry is returned while its
freshness lifetime has not ended. -/
def ratingsCacheMatch (cache : RatingsCache) (k : Nat) (nowMs : Nat) : Option Str :=
  match cache k with
  | some e => if nowMs ≤ e.expiresAt then some e.value else none
  | none => none

/-- The decoded JSON body of `POST /ratings` (fields as `parseInt` coerces
them; `none` models a missing field). -/
structure RatingBody where
  courseId : Option Str
  rating : Option Str
deriving DecidableEq, Repr

/-- The external `JSON.parse` for rating bodies, abstract (`none` = throw). -/
abbrev RatingBodyParse := Str → Option RatingBody

structure RatingReq where
  contentType : Option Str
  body : Str
deriving DecidableEq, Repr

/-- `parseInt(body.<field>, 10)` for a body field (`none` = missing field = `NaN`). -/
def ratingFieldInt (f : Option Str) : Option Int :=
  match f with
  | none => none
  | some s => parseIntJs s

/-- The authority's answer to `addRating`: `none` models network
failure/timeout/non-OK/malformed JSON; otherwise `success` is whether
`data.status === 'success'` and `payload` the JSON echoed verbatim. -/
structure PostAuthorityResp where
  success : Bool
  payload : Str
deriving DecidableEq, Repr

inductive RatingResp
  | rate429
  | badContentType400
  | tooLarge400
  | badJson400
  | badCourse400
  | badRating400
  | upstream502
  | ok (payload : Str)
deriving DecidableEq, Repr

/-- The user-visible message of each rejection of the write path
(worker.js 534-564); `none` for responses whose body is not a fixed message. -/
def ratingRespMessage : RatingResp → Option Str
  | .rate429 => some "Too many requests.".toList
  | .badContentType400 => some "Content-Type must be application/json".toList
  | .tooLarge400 => some "Request too large".toList
  | .badJson400 => some "Invalid JSON".toList
  | .badCourse400 => some "Invalid courseId".toList
  | .badRating400 => some "Rating must be 1–5".toList
  | .upstream502 => none
  | .ok _ => none

/-- `handlePostRating` (worker.js 529-597): rate limit → content type → size →
JSON parse → courseId → rating in [1,5] → authority call → on success, delete
the ratings cache entry for that course. -/
def handlePostRating (parseJson : RatingBodyParse) (req : RatingReq)
    (rlEntry : Option RLEntry) (nowMs : Nat) (authority : Option PostAuthorityResp)
    (cache : RatingsCache) : RatingResp × RatingsCache × List Effect :=
  if !((checkRateLimit (some RATE_LIMIT_POST_RATINGS) rlEntry nowMs).1.allowed) then
    (.rate429, cache, [.rateLimitCheck])
  else if !(decide ("application/json".toList <:+: req.contentType.getD [])) then
    (.badContentType400, cache, [.rateLimitCheck])
  else if MAX_BODY_SIZE < req.body.length then (.tooLarge400, cache, [.rateLimitCheck])
  else
    match parseJson req.body with
    | none => (.badJson400, cache, [.rateLimitCheck])
    | some b =>
      match ratingFieldInt b.courseId with
      | none => (.badCourse400, cache, [.rateLimitCheck])
      | some cid =>
        if cid < 1 then (.badCourse400, cache, [.rateLimitCheck])
        else
          match ratingFieldInt b.rating with
          | none => (.badRating400, cache, [.rateLimitCheck])
          | some rv =>
            if rv < 1 ∨ 5 < rv then (.badRating400, cache, [.rateLimitCheck])
            else
              match authority with
              | none => (.upstream502, cache, [.rateLimitCheck, .authorityCall])
              | some resp =>
                if resp.success then
                  (.ok resp.payload,
                   fun k => if k = cid.toNat then none else cache k,
                   [.rateLimitCheck, .authorityCall, .cacheDelete])
                else (.ok resp.payload, cache, [.rateLimitCheck, .authorityCall])

inductive GetResp
  | rate429
  | missing400
  | invalid400
  | upstream502
  | ok (payload : Str)
deriving DecidableEq, Repr

/-- `handleGetRatings` (worker.js 473-527): rate limit → courseId present →
courseId a canonical positive integer → cache lookup → on miss, authority call
and cache fill (TTL 5 minutes). -/
def handleGetRatings (courseIdParam : Option Str) (rlEntry : Option RLEntry)
    (nowMs : Nat) (cache : RatingsCache) (authority : Option Str) :
    GetResp × RatingsCache × List Effect :=
  if !((checkRateLimit (some RATE_LIMIT_GET_RATINGS) rlEntry nowMs).1.allowed) then
    (.rate429, cache, [.rateLimitCheck])
  else
    match courseIdParam with
    | none => (.missing400, cache, [.rateLimitCheck])
    | some p =>
      if p = [] then (.missing400, cache, [.rateLimitCheck])
      else
        match parseIntJs p with
        | none => (.invalid400, cache, [.rateLimitCheck])
        | some cid =>
          if cid < 1 then (.invalid400, cache, [.rateLimitCheck])
          else if intToStr cid ≠ p then (.invalid400, cache, [.rateLimitCheck])
          else
            match ratingsCacheMatch cache cid.toNat nowMs with
            | some v => (.ok v, cache, [.rateLimitCheck, .cacheRead])
            | none =>
              match authority with
              | none => (.upstream502, cache, [.rateLimitCheck, .cacheRead, .authorityCall])
              | some data =>
                (.ok data,
                 fun k => if k = cid.toNat then some ⟨data, nowMs + RATINGS_CACHE_TTL * 1000⟩
                          else cache k,
                 [.rateLimitCheck, .cacheRead, .authorityCall, .cachePut])

inductive RatingsOutcome
  | origin403
  | fromGet (g : GetResp)
  | fromPost (p : RatingResp)
  | method405
deriving DecidableEq, Repr

/-- `handleRatings` (worker.js 463-471): origin allow-list, then dispatch on
method. -/
def handleRatings (origin : Option Str) (allowedOrigin : Str) (method : Str)
    (parseJson : RatingBodyParse) (req : RatingReq) (courseIdParam : Option Str)
    (rlEntry : Option RLEntry) (nowMs : Nat) (cache : RatingsCache)
    (getAuthority : Option Str) (postAuthority : Option PostAuthorityResp) :
    RatingsOutcome :=
  if !(isOriginAllowed origin allowedOrigin) then .origin403
  else if method == "GET".toList then
    .fromGet (handleGetRatings courseIdParam rlEntry nowMs cache getAuthority).1
  else if method == "POST".toList then
    .fromPost (handlePostRating parseJson req rlEntry nowMs postAuthority cache).1
  else .method405

/-! ## Decimal strings parse back to the number they render -/

theorem digitChar10_isDigit (d : Nat) : (digitChar10 d).isDigit = true := by
  unfold digitChar10
  have hm : d % 10 < 10 := Nat.mod_lt _ (by omega)
  generalize d % 10 = m at hm ⊢
  interval_cases m <;> decide

theorem natToStrAux_digits : ∀ fuel n c, c ∈ natToStrAux fuel n → c.isDigit = true := by
  intro fuel
  induction fuel with
  | zero => intro n c hc; simp [natToStrAux] at hc
  | succ f ih =>
    intro n c hc
    rw [natToStrAux] at hc
    by_cases h : n < 10
    · rw [if_pos h] at hc
      rcases List.mem_cons.mp hc with h2 | h2
      · exact h2 ▸ digitChar10_isDigit n
      · simp at h2
    · rw [if_neg h] at hc
      rcases List.mem_append.mp hc with h2 | h2
      · exact ih _ c h2
      · rcases List.mem_cons.mp h2 with h3 | h3
        · exact h3 ▸ digitChar10_isDigit _
        · simp at h3

theorem natToStr_digits (n : Nat) {c : Char} (hc : c ∈ natToStr n) : c.isDigit = true :=
  natToStrAux_digits _ _ c hc

theorem natToStr_ne_nil (n : Nat) : natToStr n ≠ [] := by
  unfold natToStr
  rw [natToStrAux]
  split <;> simp

theorem isJsWs_of_digit (c : Char) (h : c.isDigit = true) : isJsWs c = false := by
  unfold isJsWs
  apply decide_eq_false
  intro hm
  fin_cases hm <;> exact absurd h (by decide)

theorem digit_ne_minus (c : Char) (h : c.isDigit = true) : c ≠ '-' := by
  intro he
  subst he
  exact absurd h (by decide)

theorem digit_ne_plus (c : Char) (h : c.isDigit = true) : c ≠ '+' := by
  intro he
  subst he
  exact absurd h (by decide)

theorem takeWhile_eq_self_of_all {p : Char → Bool} (l : Str)
    (h : ∀ c ∈ l, p c = true) : l.takeWhile p = l := by
  induction l with
  | nil => rfl
  | cons x xs ih =>
    rw [List.takeWhile_cons, if_pos (h x (List.mem_cons_self _ _))]
    exact congrArg (List.cons x) (ih (fun c hc => h c (List.mem_cons_of_mem _ hc)))

/-- The gateway's decimal rendering of a natural number parses back to it. -/
theorem parseIntJs_natToStr (n : Nat) : parseIntJs (natToStr n) = some (n : Int) := by
  obtain ⟨d, rest, hcons⟩ : ∃ d rest, natToStr n = d :: rest := by
    cases hh : natToStr n with
    | nil => exact absurd hh (natToStr_ne_nil n)
    | cons d r => exact ⟨d, r, rfl⟩
  have hd : d.isDigit = true := natToStr_digits n (hcons ▸ List.mem_cons_self _ _)
  have hdrop : (natToStr n).dropWhile isJsWs = d :: rest := by
    rw [hcons, List.dropWhile_cons, if_neg (by simp [isJsWs_of_digit d hd])]
  have hall : ∀ c ∈ d :: rest, c.isDigit = true := fun c hc =>
    natToStr_digits n (hcons ▸ hc)
  simp only [parseIntJs, hdrop]
  rw [if_neg (digit_ne_minus d hd), if_neg (digit_ne_plus d hd)]
  unfold parseDigits
  rw [takeWhile_eq_self_of_all _ hall]
  rw [if_neg (by simp)]
  rw [← hcons, natToStr_roundtrip]
  simp

theorem parseIntJs_intToStr_pos (cid : Int) (h : 1 ≤ cid) :
    parseIntJs (intToStr cid) = some cid := by
  rw [intToStr_of_pos cid h, parseIntJs_natToStr, Int.toNat_of_nonneg (by omega)]

/-- Claim C6: a `POST /ratings` request that reaches the rating check (rate
limit passed, JSON content type, body within the cap, body parses, positive
course id) but whose `rating` is not an integer in `[1,5]` gets the 400
response whose message is "Rating must be 1–5", and the remote authority is
never contacted. -/
theorem C6_rating_write_validation (parseJson : RatingBodyParse) (req : RatingReq)
    (rlEntry : Option RLEntry) (nowMs : Nat) (authority : Option PostAuthorityResp)
    (cache : RatingsCache) (b : RatingBody) (cid : Int)
    (hrate : (checkRateLimit (some RATE_LIMIT_POST_RATINGS) rlEntry nowMs).1.allowed = true)
    (hct : "application/json".toList <:+: req.contentType.getD [])
    (hsize : req.body.length ≤ MAX_BODY_SIZE)
    (hb : parseJson req.body = some b)
    (hcid : ratingFieldInt b.courseId = some cid) (hcid1 : 1 ≤ cid)
    (hrat : ratingFieldInt b.rating = none ∨
            ∃ rv, ratingFieldInt b.rating = some rv ∧ (rv < 1 ∨ 5 < rv)) :
    (handlePostRating parseJson req rlEntry nowMs authority cache).1 = .badRating400 ∧
    ratingRespMessage (handlePostRating parseJson req rlEntry nowMs authority cache).1
      = some "Rating must be 1–5".toList ∧
    Effect.authorityCall ∉ (handlePostRating parseJson req rlEntry nowMs authority cache).2.2 := by
  have hres : handlePostRating parseJson req rlEntry nowMs authority cache
      = (.badRating400, cache, [.rateLimitCheck]) := by
    rcases hrat with hr | ⟨rv, hrv, hout⟩
    · simp [handlePostRating, hrate, decide_eq_true hct,
        if_neg (show ¬ MAX_BODY_SIZE < req.body.length by omega), hb, hcid,
        if_neg (show ¬ cid < 1 by omega), hr]
      exact hct
    · simp [handlePostRating, hrate, decide_eq_true hct,
        if_neg (show ¬ MAX_BODY_SIZE < req.body.length by omega), hb, hcid,
        if_neg (show ¬ cid < 1 by omega), hrv, if_pos hout]
      exact hct
  rw [hres]
  exact ⟨rfl, rfl, by simp⟩

/-- A concrete `JSON.parse` standing in for rating bodies in witnesses:
`{courseId: "3", rating: "6"}`. -/
def demoRatingParse : RatingBodyParse := fun _ => some ⟨some ['3'], some ['6']⟩

theorem C6_rating_write_validation_witness :
    ((checkRateLimit (some RATE_LIMIT_POST_RATINGS) none 0).1.allowed = true ∧
     ("application/json".toList <:+: (some "application/json".toList).getD []) ∧
     ([] : Str).length ≤ MAX_BODY_SIZE ∧
     demoRatingParse [] = some ⟨some ['3'], some ['6']⟩ ∧
     ratingFieldInt (some ['3']) = some 3 ∧
     ratingFieldInt (some ['6']) = some 6) ∧
    ((handlePostRating demoRatingParse ⟨some "application/json".toList, []⟩ none 0
        (some ⟨true, ['p']⟩) (fun _ => none)).1 = .badRating400 ∧
     ratingRespMessage (handlePostRating demoRatingParse ⟨some "application/json".toList, []⟩
        none 0 (some ⟨true, ['p']⟩) (fun _ => none)).1 = some "Rating must be 1–5".toList ∧
     Effect.authorityCall ∉ (handlePostRating demoRatingParse
        ⟨some "application/json".toList, []⟩ none 0 (some ⟨true, ['p']⟩)
        (fun _ => none)).2.2) :=
  ⟨⟨by decide, by decide, by decide, by decide, by decide, by decide⟩,
   C6_rating_write_validation demoRatingParse ⟨some "application/json".toList, []⟩ none 0
     (some ⟨true, ['p']⟩) (fun _ => none) ⟨some ['3'], some ['6']⟩ 3
     (by decide) (by decide) (by decide) (by decide) (by decide) (by decide)
     (Or.inr ⟨6, by decide, Or.inr (by decide)⟩)⟩

/-- Claim C7: when the authority reports success for a `POST /ratings`, the
ratings cache entry for that course id is explicitly deleted, so a following
`GET /ratings` for the same id misses the cache — it calls the authority —
even when the pre-existing entry's TTL had not elapsed at read time. -/
theorem C7_read_after_write_invalidation (parseJson : RatingBodyParse) (req : RatingReq)
    (rlEntry rlEntry2 : Option RLEntry) (nowMs now2 : Nat)
    (resp : PostAuthorityResp) (cache : RatingsCache) (b : RatingBody) (cid : Int)
    (entry : RatingsEntry) (d : Str)
    (hrate : (checkRateLimit (some RATE_LIMIT_POST_RATINGS) rlEntry nowMs).1.allowed = true)
    (hct : "application/json".toList <:+: req.contentType.getD [])
    (hsize : req.body.length ≤ MAX_BODY_SIZE)
    (hb : parseJson req.body = some b)
    (hcid : ratingFieldInt b.courseId = some cid) (hcid1 : 1 ≤ cid)
    (hrv : ∃ rv, ratingFieldInt b.rating = some rv ∧ 1 ≤ rv ∧ rv ≤ 5)
    (hsucc : resp.success = true)
    (_hold : cache cid.toNat = some entry) (_hfresh : now2 ≤ entry.expiresAt)
    (hrate2 : (checkRateLimit (some RATE_LIMIT_GET_RATINGS) rlEntry2 now2).1.allowed = true) :
    (handlePostRating parseJson req rlEntry nowMs (some resp) cache).2.1 cid.toNat = none ∧
    Effect.authorityCall ∈
      (handleGetRatings (some (intToStr cid)) rlEntry2 now2
        (handlePostRating parseJson req rlEntry nowMs (some resp) cache).2.1 (some d)).2.2 ∧
    (handleGetRatings (some (intToStr cid)) rlEntry2 now2
        (handlePostRating parseJson req rlEntry nowMs (some resp) cache).2.1 (some d)).1
      = .ok d := by
  obtain ⟨rv, hrv1, hrv2, hrv3⟩ := hrv
  have hpost : handlePostRating parseJson req rlEntry nowMs (some resp) cache
      = (.ok resp.payload, fun k => if k = cid.toNat then none else cache k,
         [.rateLimitCheck, .authorityCall, .cacheDelete]) := by
    simp [handlePostRating, hrate, decide_eq_true hct,
      if_neg (show ¬ MAX_BODY_SIZE < req.body.length by omega), hb, hcid,
      if_neg (show ¬ cid < 1 by omega), hrv1,
      if_neg (show ¬ (rv < 1 ∨ 5 < rv) by omega), hsucc]
    exact hct
  rw [hpost]
  have hmatch : ratingsCacheMatch (fun k => if k = cid.toNat then none else cache k)
      cid.toNat now2 = none := by
    simp [ratingsCacheMatch]
  have hne : intToStr cid ≠ [] := by
    rw [intToStr_of_pos cid hcid1]
    exact natToStr_ne_nil _
  have hget : handleGetRatings (some (intToStr cid)) rlEntry2 now2
      (fun k => if k = cid.toNat then none else cache k) (some d)
      = (.ok d,
         fun k => if k = cid.toNat then some ⟨d, now2 + RATINGS_CACHE_TTL * 1000⟩
                  else (fun k => if k = cid.toNat then none else cache k) k,
         [.rateLimitCheck, .cacheRead, .authorityCall, .cachePut]) := by
    simp [handleGetRatings, hrate2, hne, parseIntJs_intToStr_pos cid hcid1,
      if_neg (show ¬ cid < 1 by omega), hmatch]
  rw [hget]
  exact ⟨by simp, by simp, rfl⟩

/-- A concrete `JSON.parse` for a valid rating body: `{courseId: "3", rating: "4"}`. -/
def demoRatingParseOk : RatingBodyParse := fun _ => some ⟨some ['3'], some ['4']⟩

theorem C7_read_after_write_invalidation_witness :
    ((checkRateLimit (some RATE_LIMIT_POST_RATINGS) none 0).1.allowed = true ∧
     ("application/json".toList <:+: (some "application/json".toList).getD []) ∧
     ([] : Str).length ≤ MAX_BODY_SIZE ∧
     demoRatingParseOk [] = some ⟨some ['3'], some ['4']⟩ ∧
     ratingFieldInt (some ['3']) = some 3 ∧
     ratingFieldInt (some ['4']) = some 4 ∧
     (fun _ : Nat => some (⟨['o'], 999999⟩ : RatingsEntry)) (Int.toNat 3)
        = some ⟨['o'], 999999⟩ ∧
     (0 : Nat) ≤ 999999 ∧
     (checkRateLimit (some RATE_LIMIT_GET_RATINGS) none 0).1.allowed = true) ∧
    ((handlePostRating demoRatingParseOk ⟨some "application/json".toList, []⟩ none 0
        (some ⟨true, ['p']⟩) (fun _ => some ⟨['o'], 999999⟩)).2.1 (Int.toNat 3) = none ∧
     Effect.authorityCall ∈
       (handleGetRatings (some (intToStr 3)) none 0
         (handlePostRating demoRatingParseOk ⟨some "application/json".toList, []⟩ none 0
           (some ⟨true, ['p']⟩) (fun _ => some ⟨['o'], 999999⟩)).2.1 (some ['d'])).2.2 ∧
     (handleGetRatings (some (intToStr 3)) none 0
         (handlePostRating demoRatingParseOk ⟨some "application/json".toList, []⟩ none 0
           (some ⟨true, ['p']⟩) (fun _ => some ⟨['o'], 999999⟩)).2.1 (some ['d'])).1
       = .ok ['d']) :=
  ⟨⟨by decide, by decide, by decide, by decide, by decide, by decide, rfl, by decide, by decide⟩,
   C7_read_after_write_invalidation demoRatingParseOk ⟨some "application/json".toList, []⟩
     none none 0 0 ⟨true, ['p']⟩ (fun _ => some ⟨['o'], 999999⟩) ⟨some ['3'], some ['4']⟩ 3
     ⟨['o'], 999999⟩ ['d']
     (by decide) (by decide) (by decide) (by decide) (by decide) (by decide)
     ⟨4, by decide, by decide, by decide⟩ (by decide) rfl (by decide) (by decide)⟩

/-- Claim C10: a request with no `Origin` header always passes the allow-list
check, so the 403 disallowed-origin rejection is unreachable for both the
login handler and the ratings dispatcher, whatever the configured origin. -/
theorem C10_missing_origin_allowed
    (allowedOrigin secret : Str) (hmac : Hmac) (enc : ClaimEnc)
    (parseJsonL : LoginBodyParse) (req : LoginReq)
    (rlEntry : Option RLEntry) (nowMs : Nat) (authority : Option Bool)
    (method : Str) (parseJsonR : RatingBodyParse) (rreq : RatingReq)
    (courseIdParam : Option Str) (cache : RatingsCache)
    (getAuthority : Option Str) (postAuthority : Option PostAuthorityResp)
    (horigin : req.origin = none) :
    isOriginAllowed none allowedOrigin = true ∧
    (handlePaidLogin hmac enc parseJsonL req allowedOrigin secret rlEntry nowMs authority).1
      ≠ .origin403 ∧
    handleRatings none allowedOrigin method parseJsonR rreq courseIdParam rlEntry nowMs cache
      getAuthority postAuthority ≠ .origin403 := by
  refine ⟨rfl, ?_, ?_⟩
  · simp only [handlePaidLogin, horigin, isOriginAllowed, Bool.not_true,
      Bool.false_eq_true, if_false]
    (repeat' split) <;> simp
  · simp only [handleRatings, isOriginAllowed, Bool.not_true, Bool.false_eq_true, if_false]
    (repeat' split) <;> simp

theorem C10_missing_origin_allowed_witness :
    ((⟨none, "POST".toList, none, []⟩ : LoginReq).origin = none) ∧
    (isOriginAllowed none ['o'] = true ∧
     (handlePaidLogin demoHmac demoEnc (fun _ => none) ⟨none, "POST".toList, none, []⟩
        ['o'] ['s'] none 0 none).1 ≠ .origin403 ∧
     handleRatings none ['o'] "GET".toList (fun _ => none) ⟨none, []⟩ none none 0
        (fun _ => none) none none ≠ .origin403) :=
  ⟨rfl,
   C10_missing_origin_allowed ['o'] ['s'] demoHmac demoEnc (fun _ => none)
     ⟨none, "POST".toList, none, []⟩ none 0 none "GET".toList (fun _ => none) ⟨none, []⟩
     none (fun _ => none) none none rfl⟩

end Wasla
